import Mathlib

/-!
# Verification of the collect-card-voice extraction engine

Shallow embedding of the table/section extraction engine of
`src/fetch_card_text.py`, `src/fetch_voice_data.py` and `src/verify_links.py`,
together with proofs and refutations of the frozen specification claims.

Documents are modelled as trees already parsed: a listing document is a list
of blocks (h2-h4 headings and tables in document order), a detail document is
a list of h2-h4 headings each carrying the rows of the first table of its
next-sibling `div` (when both exist).  Python `dict`s are modelled as
insertion-ordered association lists, Python `in` on strings as contiguous
substring containment on the code-point lists, and `str.strip` as trimming
of leading and trailing whitespace characters.
-/

/-- Python whitespace for `str.strip` (the ASCII whitespace characters). -/
def pyWs (c : Char) : Bool :=
  c = ' ' || c = '\t' || c = '\n' || c = '\r' || c.toNat = 11 || c.toNat = 12

/-- Model of Python `str.strip()`: drop leading and trailing whitespace. -/
def pstrip (s : String) : String :=
  String.mk (((s.data.dropWhile pyWs).reverse.dropWhile pyWs).reverse)

/-- `needle` is a prefix of `hay` (on code-point lists). -/
def listPfx : List Char → List Char → Bool
  | [], _ => true
  | _ :: _, [] => false
  | a :: as, b :: bs => a = b && listPfx as bs

/-- Contiguous-substring search on code-point lists. -/
def listSub (n : List Char) : List Char → Bool
  | [] => listPfx n []
  | b :: bs => listPfx n (b :: bs) || listSub n bs

/-- Model of Python `needle in hay` on strings: contiguous substring. -/
def strIn (needle hay : String) : Bool :=
  listSub needle.data hay.data

/-- Python `dict` assignment `d[k] = v` on an insertion-ordered association
list: replace in place when the key exists, append otherwise. -/
def dset : List (String × String) → String → String → List (String × String)
  | [], k, v => [(k, v)]
  | (k', v') :: t, k, v =>
    if k' = k then (k', v) :: t else (k', v') :: dset t k v

/-- Python `dict` lookup (first binding of the key). -/
def dget : List (String × String) → String → Option String
  | [], _ => none
  | (k', v') :: t, k => if k' = k then some v' else dget t k

/-- Lookup with default empty string (every modelled dict has its keys
pre-initialised, so the default is never observed on real states). -/
def vget (d : List (String × String)) (k : String) : String :=
  (dget d k).getD ""

/-- The keys of a modelled dict, in insertion order. -/
def dkeys (d : List (String × String)) : List String :=
  d.map Prod.fst

/-! ## Card listing page (`src/fetch_card_text.py`) -/

/-- A table cell: role (`th` or `td`) and its `get_text()` text. -/
structure Cell where
  isTh : Bool
  text : String
deriving DecidableEq, Repr

/-- A `th` cell. -/
def th (t : String) : Cell := ⟨true, t⟩

/-- A `td` cell. -/
def td (t : String) : Cell := ⟨false, t⟩

/-- A table row (`tr`): its cells in document order. -/
abbrev CRow := List Cell

/-- A table: its rows in document order. -/
abbrev CTable := List CRow

/-- A block-level node of the listing document that the locator can see:
an h2-h4 heading (with its text) or a table. -/
inductive Block where
  | heading (text : String)
  | table (tb : CTable)
deriving DecidableEq, Repr

/-- A listing document: its blocks in document order. -/
abbrev CDoc := List Block

/-- `cell.get_text(strip=True)`. -/
def cellText (c : Cell) : String := pstrip c.text

/-- `table.find_all('th')` texts, document order, stripped
(`fetch_card_text.py` lines 70-71). -/
def thTexts (tb : CTable) : List String :=
  ((tb.foldr (· ++ ·) []).filter Cell.isTh).map cellText

/-- `required_headers` of `find_card_table` (line 75). -/
def requiredHeaders : List String := ["レアリティ", "カード名"]

/-- `optional_headers` of `find_card_table` (line 76). -/
def optionalHeaders : List String := ["初出ガチャ", "スマイル", "ピュア", "クール"]

/-- Rule A of the table locator (lines 78-81): all required header texts and
at least one optional header text occur among the table's `th` texts. -/
def ruleA (tb : CTable) : Bool :=
  requiredHeaders.all (fun h => (thTexts tb).contains h) &&
    optionalHeaders.any (fun h => (thTexts tb).contains h)

/-- Rule B heading test (line 88): the stripped heading text contains
`実装カード` or `カード一覧`. -/
def hdMatches (t : String) : Bool :=
  strIn "実装カード" (pstrip t) || strIn "カード一覧" (pstrip t)

/-- Rule B on the nearest preceding h2-h4 heading, when there is one. -/
def prevMatches : Option String → Bool
  | none => false
  | some t => hdMatches t

/-- The loop of `find_card_table` (lines 68-91): walk the document carrying
the nearest preceding h2-h4 heading; for each table first test Rule A, then
Rule B against that heading. -/
def findCardTableAux : Option String → CDoc → Option CTable
  | _, [] => none
  | _, Block.heading t :: rest => findCardTableAux (some t) rest
  | prev, Block.table tb :: rest =>
    if ruleA tb then some tb
    else if prevMatches prev then some tb
    else findCardTableAux prev rest

/-- `CardFetcher.find_card_table` (lines 55-91). -/
def find_card_table (doc : CDoc) : Option CTable :=
  findCardTableAux none doc

/-- The tables of a listing document paired with the text of their nearest
preceding h2-h4 heading, in document order. -/
def twp : Option String → CDoc → List (Option String × CTable)
  | _, [] => []
  | _, Block.heading t :: rest => twp (some t) rest
  | prev, Block.table tb :: rest => (prev, tb) :: twp prev rest

/-- The per-table qualification test of `find_card_table`: Rule A, else
Rule B against the nearest preceding heading. -/
def qualT (pt : Option String × CTable) : Bool :=
  ruleA pt.2 || prevMatches pt.1

/-- A table that satisfies neither rule by itself (its text cell is a `td`,
so Rule A sees no `th` texts). -/
def exTableB : CTable := [[td "x"]]

/-- A table whose `th` texts satisfy Rule A. -/
def exTableA : CTable := [[th "レアリティ", th "カード名", th "スマイル"]]

/-- A listing document in which a heading matching Rule B precedes a
non-Rule-A table, and a Rule-A table comes later. -/
def exDocC1 : CDoc :=
  [Block.heading "実装カード一覧", Block.table exTableB, Block.table exTableA]

/-- Record builder of `parse_card_table` (lines 125-130): pair header labels
with cell texts positionally (extra cells dropped) and store each pair into
the record dict in order. -/
def buildRecord (hs cs : List String) : List (String × String) :=
  (hs.zip cs).foldl (fun d p => dset d p.1 p.2) []

/-- `CardFetcher.parse_card_table` (lines 93-135): first row gives the header
template; rows with zero cells are skipped; each other row becomes a record
keyed by template labels; empty records are not emitted. -/
def parse_card_table (tb : CTable) : List (List (String × String)) :=
  match tb with
  | [] => []
  | hrow :: drows =>
    let headers := hrow.map cellText
    if headers.isEmpty then []
    else
      drows.filterMap (fun row =>
        let cells := row.map cellText
        if cells.isEmpty then none
        else
          let d := buildRecord headers cells
          if d.isEmpty then none else some d)

/-! ## Link generator (`generate_card_link`, lines 164-183) -/

/-- The fixed base address (line 175). -/
def baseUrl : String := "https://wikiwiki.jp/llll_wiki/"

/-- `card_name.replace('/', '／')` — a single-character replacement. -/
def slashToFull (s : String) : String :=
  String.mk (s.data.map (fun c => if c = '/' then '／' else c))

/-- `f"［{card_name_converted}］{member_name}"` (line 181). -/
def pageName (card_name member_name : String) : String :=
  "［" ++ slashToFull card_name ++ "］" ++ member_name

/-- UTF-8 bytes of one code point. -/
def charUtf8 (c : Char) : List Nat :=
  let n := c.toNat
  if n < 128 then [n]
  else if n < 2048 then [192 + n / 64, 128 + n % 64]
  else if n < 65536 then [224 + n / 4096, 128 + (n / 64) % 64, 128 + n % 64]
  else [240 + n / 262144, 128 + (n / 4096) % 64, 128 + (n / 64) % 64, 128 + n % 64]

/-- UTF-8 encoding of a string as a byte list (`page_name.encode('utf-8')`). -/
def utf8Bytes (s : String) : List Nat :=
  (s.data.map charUtf8).foldr (· ++ ·) []

/-- Bytes left verbatim by `urllib.parse.quote` with its default `safe='/'`:
ASCII letters, digits, `_ . - ~` and `/`. -/
def quoteSafe (b : Nat) : Bool :=
  (65 ≤ b && b ≤ 90) || (97 ≤ b && b ≤ 122) || (48 ≤ b && b ≤ 57) ||
    b = 95 || b = 46 || b = 45 || b = 126 || b = 47

/-- Upper-case hexadecimal digit. -/
def hexDigit (n : Nat) : Char :=
  if n < 10 then Char.ofNat (48 + n) else Char.ofNat (55 + n)

/-- `urllib.parse.quote` on a UTF-8 byte sequence: safe bytes verbatim,
others as `%XX` with upper-case hex. -/
def urlquote (s : String) : String :=
  String.mk (((utf8Bytes s).map (fun b =>
    if quoteSafe b then [Char.ofNat b]
    else ['%', hexDigit (b / 16), hexDigit (b % 16)])).foldr (· ++ ·) [])

/-- `generate_card_link` (lines 164-183). -/
def generate_card_link (card_name : String) (member_name : String) : String :=
  baseUrl ++ urlquote (pageName card_name member_name)

/-! ## Voice detail page (`src/fetch_voice_data.py`) -/

/-- A row of the voice table: the `get_text()` texts of its `th`/`td`
cells. -/
abbrev VRow := List String

/-- An h2-h4 heading of a detail document.  `divTable` holds the rows of the
first table of the heading's next-sibling `div`; it is `none` when the
heading has no next-sibling `div` or that `div` holds no table. -/
structure VHeading where
  text : String
  divTable : Option (List VRow)
deriving DecidableEq, Repr

/-- A detail document: its h2-h4 headings in document order. -/
abbrev VDoc := List VHeading

/-- The fixed 8-key voice dict, in its initialisation order
(`fetch_voice_data.py` lines 20-29). -/
def emptyVoice : List (String × String) :=
  [("入手時", ""), ("特訓時", ""), ("特訓1回目", ""), ("特訓2回目", ""),
   ("ライブ開始", ""), ("スキル発動", ""), ("スキル発動(クロスボイス)", ""), ("SP発動", "")]

/-- The 8 category keys in dict order. -/
def voiceKeys : List String := dkeys emptyVoice

/-- One iteration of the classification loop (lines 51-73): rows with fewer
than 2 cells are skipped; otherwise the first cell (stripped) is matched
against the category rules in order, with the generic `スキル発動` rule guarded
by emptiness of its slot. -/
def vstep (vd : List (String × String)) (cells : VRow) : List (String × String) :=
  match cells with
  | c0 :: c1 :: _ =>
    let ty := pstrip c0
    let msg := pstrip c1
    if strIn "入手時" ty then dset vd "入手時" msg
    else if strIn "特訓1回目" ty then dset vd "特訓1回目" msg
    else if strIn "特訓2回目" ty then dset vd "特訓2回目" msg
    else if strIn "特訓時" ty then dset vd "特訓時" msg
    else if strIn "ライブ開始" ty then dset vd "ライブ開始" msg
    else if strIn "クロスボイス" ty then dset vd "スキル発動(クロスボイス)" msg
    else if strIn "スキル発動" ty && decide (vget vd "スキル発動" = "") then
      dset vd "スキル発動" msg
    else if strIn "SP発動" ty || strIn "SP スキル発動" ty then dset vd "SP発動" msg
    else vd
  | _ => vd

/-- `extract_voice_data` (lines 8-89) on an already-settled fetch outcome:
an exception anywhere in the try block yields the all-empty dict; otherwise
the first h2-h4 heading containing both `演出` and `ボイス` is located, and the
rows of its next-sibling div's table (when present) are classified in
order. -/
def extract_voice_data (fetched : Except String VDoc) : List (String × String) :=
  match fetched with
  | Except.error _ => emptyVoice
  | Except.ok doc =>
    match doc.find? (fun h => strIn "演出" h.text && strIn "ボイス" h.text) with
    | none => emptyVoice
    | some sec =>
      match sec.divTable with
      | none => emptyVoice
      | some rows => rows.foldl vstep emptyVoice

/-! ## Link verification (`src/verify_links.py`) -/

/-- `verify_link` (lines 31-51) on already-settled transport outcomes: the
HEAD probe's outcome and the GET outcome (consulted only when the HEAD
status is at least 400).  A transport exception at either request yields
`(false, 0, message)`; otherwise success is a final status in `[200, 400)`,
reported with that raw status. -/
def verify_link (head get : Except String Nat) : Bool × Nat × String :=
  match head with
  | Except.error e => (false, 0, e)
  | Except.ok s =>
    if 400 ≤ s then
      match get with
      | Except.error e => (false, 0, e)
      | Except.ok t => (decide (200 ≤ t ∧ t < 400), t, "")
    else (decide (200 ≤ s ∧ s < 400), s, "")

/-- The final response of `verify_link`, as the spec describes it: the HEAD
response unless its status was at least 400, in which case the GET
response. -/
def finalResponse (head get : Except String Nat) : Except String Nat :=
  match head with
  | Except.error e => Except.error e
  | Except.ok s => if 400 ≤ s then get else Except.ok s

/-! ## Lemmas on the dict model -/

theorem dget_dset_self (d : List (String × String)) (k v : String) :
    dget (dset d k v) k = some v := by
  induction d with
  | nil => simp [dset, dget]
  | cons p t ih =>
    obtain ⟨k', v'⟩ := p
    by_cases h : k' = k
    · simp [dset, dget, h]
    · simp [dset, dget, h, ih]

theorem dget_dset_ne (d : List (String × String)) (k v k2 : String)
    (h : k2 ≠ k) : dget (dset d k v) k2 = dget d k2 := by
  have h2 : ¬ k = k2 := fun hh => h hh.symm
  induction d with
  | nil => simp [dset, dget, h2]
  | cons p t ih =>
    obtain ⟨k', v'⟩ := p
    by_cases hk : k' = k
    · subst hk
      simp [dset, dget, h2]
    · simp [dset, dget, hk, ih]

theorem vget_dset_self (d : List (String × String)) (k v : String) :
    vget (dset d k v) k = v := by
  simp [vget, dget_dset_self]

theorem vget_dset_ne (d : List (String × String)) (k v k2 : String)
    (h : k2 ≠ k) : vget (dset d k v) k2 = vget d k2 := by
  simp [vget, dget_dset_ne d k v k2 h]

theorem dkeys_dset_mem (d : List (String × String)) (k v : String)
    (h : k ∈ dkeys d) : dkeys (dset d k v) = dkeys d := by
  induction d with
  | nil => simp [dkeys] at h
  | cons p t ih =>
    obtain ⟨k', v'⟩ := p
    by_cases hk : k' = k
    · simp [dset, dkeys, hk]
    · have hmem : k ∈ dkeys t := by
        simp [dkeys] at h
        rcases h with h | h
        · exact absurd h.symm hk
        · simpa [dkeys] using h
      simp [dset, dkeys, hk]
      simpa [dkeys] using ih hmem

theorem dkeys_dset_not_mem (d : List (String × String)) (k v : String)
    (h : k ∉ dkeys d) : dkeys (dset d k v) = dkeys d ++ [k] := by
  induction d with
  | nil => simp [dset, dkeys]
  | cons p t ih =>
    obtain ⟨k', v'⟩ := p
    have hk : k' ≠ k := by
      intro hh
      exact h (by simp [dkeys, hh])
    have ht : k ∉ dkeys t := by
      intro hh
      exact h (by simp [dkeys] at hh ⊢; exact Or.inr hh)
    simp [dset, dkeys, hk]
    simpa [dkeys] using ih ht

/-! ## Lemmas on the field classifier -/

theorem vstep_shape (vd : List (String × String)) (cells : VRow) :
    vstep vd cells = vd ∨
      ∃ k m, k ∈ voiceKeys ∧ (k = "スキル発動" → vget vd "スキル発動" = "") ∧
        vstep vd cells = dset vd k m := by
  match cells with
  | [] => exact Or.inl rfl
  | [c] => exact Or.inl rfl
  | c0 :: c1 :: rest =>
    simp only [vstep]
    split
    · exact Or.inr ⟨_, _, by decide, fun hh => absurd hh (by decide), rfl⟩
    split
    · exact Or.inr ⟨_, _, by decide, fun hh => absurd hh (by decide), rfl⟩
    split
    · exact Or.inr ⟨_, _, by decide, fun hh => absurd hh (by decide), rfl⟩
    split
    · exact Or.inr ⟨_, _, by decide, fun hh => absurd hh (by decide), rfl⟩
    split
    · exact Or.inr ⟨_, _, by decide, fun hh => absurd hh (by decide), rfl⟩
    split
    · exact Or.inr ⟨_, _, by decide, fun hh => absurd hh (by decide), rfl⟩
    case isFalse.isFalse.isFalse.isFalse.isFalse.isFalse =>
      split
      next hg =>
        refine Or.inr ⟨_, _, by decide, fun _ => ?_, rfl⟩
        have := (Bool.and_eq_true _ _).mp hg
        exact of_decide_eq_true this.2
      split
      · exact Or.inr ⟨_, _, by decide, fun hh => absurd hh (by decide), rfl⟩
      · exact Or.inl rfl

/-- No rule ever overwrites a non-empty generic skill-activation slot. -/
theorem vget_vstep_skill_stable (vd : List (String × String)) (cells : VRow)
    (h : vget vd "スキル発動" ≠ "") :
    vget (vstep vd cells) "スキル発動" = vget vd "スキル発動" := by
  rcases vstep_shape vd cells with hs | ⟨k, m, hk, hg, hs⟩
  · rw [hs]
  · rw [hs]
    by_cases hkk : k = "スキル発動"
    · exact absurd (hg hkk) h
    · exact vget_dset_ne vd k m _ (fun hh => hkk hh.symm)

theorem dkeys_vstep (vd : List (String × String)) (cells : VRow)
    (h : dkeys vd = voiceKeys) : dkeys (vstep vd cells) = voiceKeys := by
  rcases vstep_shape vd cells with hs | ⟨k, m, hk, _, hs⟩
  · rw [hs, h]
  · rw [hs, dkeys_dset_mem vd k m (h ▸ hk), h]

theorem dkeys_foldl_vstep (rows : List VRow) :
    ∀ vd, dkeys vd = voiceKeys → dkeys (rows.foldl vstep vd) = voiceKeys := by
  induction rows with
  | nil => intro vd h; exact h
  | cons r t ih =>
    intro vd h
    exact ih (vstep vd r) (dkeys_vstep vd r h)

theorem vstep_acq (vd : List (String × String)) (c0 c1 : String) (rest : List String)
    (h : strIn "入手時" (pstrip c0) = true) :
    vstep vd (c0 :: c1 :: rest) = dset vd "入手時" (pstrip c1) := by
  simp [vstep, h]

theorem vstep_t1 (vd : List (String × String)) (c0 c1 : String) (rest : List String)
    (h1 : strIn "特訓1回目" (pstrip c0) = true)
    (h0 : strIn "入手時" (pstrip c0) = false) :
    vstep vd (c0 :: c1 :: rest) = dset vd "特訓1回目" (pstrip c1) := by
  simp [vstep, h1, h0]

theorem vstep_t2 (vd : List (String × String)) (c0 c1 : String) (rest : List String)
    (h2 : strIn "特訓2回目" (pstrip c0) = true)
    (h0 : strIn "入手時" (pstrip c0) = false)
    (h1 : strIn "特訓1回目" (pstrip c0) = false) :
    vstep vd (c0 :: c1 :: rest) = dset vd "特訓2回目" (pstrip c1) := by
  simp [vstep, h2, h0, h1]

theorem vstep_tg (vd : List (String × String)) (c0 c1 : String) (rest : List String)
    (hg : strIn "特訓時" (pstrip c0) = true)
    (h0 : strIn "入手時" (pstrip c0) = false)
    (h1 : strIn "特訓1回目" (pstrip c0) = false)
    (h2 : strIn "特訓2回目" (pstrip c0) = false) :
    vstep vd (c0 :: c1 :: rest) = dset vd "特訓時" (pstrip c1) := by
  simp [vstep, hg, h0, h1, h2]

theorem vstep_live (vd : List (String × String)) (c0 c1 : String) (rest : List String)
    (hl : strIn "ライブ開始" (pstrip c0) = true)
    (h0 : strIn "入手時" (pstrip c0) = false)
    (h1 : strIn "特訓1回目" (pstrip c0) = false)
    (h2 : strIn "特訓2回目" (pstrip c0) = false)
    (h3 : strIn "特訓時" (pstrip c0) = false) :
    vstep vd (c0 :: c1 :: rest) = dset vd "ライブ開始" (pstrip c1) := by
  simp [vstep, hl, h0, h1, h2, h3]

theorem vstep_cross (vd : List (String × String)) (c0 c1 : String) (rest : List String)
    (hc : strIn "クロスボイス" (pstrip c0) = true)
    (h0 : strIn "入手時" (pstrip c0) = false)
    (h1 : strIn "特訓1回目" (pstrip c0) = false)
    (h2 : strIn "特訓2回目" (pstrip c0) = false)
    (h3 : strIn "特訓時" (pstrip c0) = false)
    (h4 : strIn "ライブ開始" (pstrip c0) = false) :
    vstep vd (c0 :: c1 :: rest) = dset vd "スキル発動(クロスボイス)" (pstrip c1) := by
  simp [vstep, hc, h0, h1, h2, h3, h4]

theorem vstep_skill (vd : List (String × String)) (c0 c1 : String) (rest : List String)
    (hs : strIn "スキル発動" (pstrip c0) = true)
    (h0 : strIn "入手時" (pstrip c0) = false)
    (h1 : strIn "特訓1回目" (pstrip c0) = false)
    (h2 : strIn "特訓2回目" (pstrip c0) = false)
    (h3 : strIn "特訓時" (pstrip c0) = false)
    (h4 : strIn "ライブ開始" (pstrip c0) = false)
    (h5 : strIn "クロスボイス" (pstrip c0) = false)
    (hg : vget vd "スキル発動" = "") :
    vstep vd (c0 :: c1 :: rest) = dset vd "スキル発動" (pstrip c1) := by
  simp [vstep, hs, h0, h1, h2, h3, h4, h5, hg]

theorem vstep_sp (vd : List (String × String)) (c0 c1 : String) (rest : List String)
    (hp : strIn "SP発動" (pstrip c0) = true)
    (h0 : strIn "入手時" (pstrip c0) = false)
    (h1 : strIn "特訓1回目" (pstrip c0) = false)
    (h2 : strIn "特訓2回目" (pstrip c0) = false)
    (h3 : strIn "特訓時" (pstrip c0) = false)
    (h4 : strIn "ライブ開始" (pstrip c0) = false)
    (h5 : strIn "クロスボイス" (pstrip c0) = false)
    (h6 : strIn "スキル発動" (pstrip c0) = false) :
    vstep vd (c0 :: c1 :: rest) = dset vd "SP発動" (pstrip c1) := by
  simp [vstep, hp, h0, h1, h2, h3, h4, h5, h6]

/-! ## Lemmas on the record builder -/

theorem dget_foldl_dset (L : String) (ps : List (String × String)) :
    ∀ d, dget (ps.foldl (fun d p => dset d p.1 p.2) d) L
      = ps.foldl (fun acc p => if p.1 = L then some p.2 else acc) (dget d L) := by
  induction ps with
  | nil => intro d; rfl
  | cons p t ih =>
    intro d
    simp only [List.foldl_cons]
    rw [ih]
    by_cases h : p.1 = L
    · rw [if_pos h, ← h, dget_dset_self]
    · rw [if_neg h, dget_dset_ne d p.1 p.2 L (fun hh => h hh.symm)]

theorem rfold_all_ne (L : String) (l : List (String × String)) (init : Option String)
    (h : ∀ p ∈ l, p.1 ≠ L) :
    l.foldl (fun acc p => if p.1 = L then some p.2 else acc) init = init := by
  induction l generalizing init with
  | nil => rfl
  | cons p t ih =>
    simp only [List.foldl_cons]
    rw [if_neg (h p (List.mem_cons_self p t)), ih]
    intro q hq
    exact h q (List.mem_cons_of_mem p hq)

/-- In a built record, the value stored under a label is the text of the cell
at the last template position bearing that label (among positions covered by
the row). -/
theorem dget_build_last (hs cs : List String) (L : String) (j : Nat)
    (hjh : j < hs.length) (hjc : j < cs.length)
    (hL : hs.get ⟨j, hjh⟩ = L)
    (hlast : ∀ k (hk : k < hs.length), j < k → k < cs.length →
      hs.get ⟨k, hk⟩ ≠ L) :
    dget (buildRecord hs cs) L = some (cs.get ⟨j, hjc⟩) := by
  have hjz : j < (hs.zip cs).length := by
    rw [List.length_zip]
    exact lt_min hjh hjc
  have hdecomp : hs.zip cs
      = (hs.zip cs).take j ++ (hs.zip cs).get ⟨j, hjz⟩ :: (hs.zip cs).drop (j + 1) := by
    conv_lhs => rw [← List.take_append_drop j (hs.zip cs)]
    rw [List.drop_eq_getElem_cons hjz]
    simp [List.get_eq_getElem]
  have hgetj : (hs.zip cs).get ⟨j, hjz⟩ = (hs.get ⟨j, hjh⟩, cs.get ⟨j, hjc⟩) := by
    simp [List.getElem_zip]
  rw [buildRecord, dget_foldl_dset, hdecomp, List.foldl_append]
  simp only [List.foldl_cons, hgetj, hL, if_pos rfl]
  apply rfold_all_ne
  intro p hp
  obtain ⟨⟨i, hi⟩, hpi⟩ := List.mem_iff_get.mp hp
  have hiz : j + 1 + i < (hs.zip cs).length := by
    have := hi
    simp only [List.length_drop] at this
    omega
  have hih : j + 1 + i < hs.length := by
    rw [List.length_zip] at hiz
    omega
  have hic : j + 1 + i < cs.length := by
    rw [List.length_zip] at hiz
    omega
  have hpv : p = (hs.get ⟨j + 1 + i, hih⟩, cs.get ⟨j + 1 + i, hic⟩) := by
    rw [← hpi]
    simp [List.getElem_drop, List.getElem_zip]
  rw [hpv]
  exact hlast (j + 1 + i) hih (by omega) hic

theorem dkeys_dset_toFinset (d : List (String × String)) (k v : String) :
    (dkeys (dset d k v)).toFinset = insert k (dkeys d).toFinset := by
  by_cases h : k ∈ dkeys d
  · rw [dkeys_dset_mem d k v h,
      Finset.insert_eq_self.mpr (List.mem_toFinset.mpr h)]
  · rw [dkeys_dset_not_mem d k v h]
    ext x
    simp [or_comm]

theorem dkeys_dset_nodup (d : List (String × String)) (k v : String)
    (h : (dkeys d).Nodup) : (dkeys (dset d k v)).Nodup := by
  by_cases hm : k ∈ dkeys d
  · rw [dkeys_dset_mem d k v hm]; exact h
  · rw [dkeys_dset_not_mem d k v hm]
    simp [List.nodup_append, h, hm]

theorem dkeys_build_nodup (ps : List (String × String)) :
    ∀ d, (dkeys d).Nodup →
      (dkeys (ps.foldl (fun d p => dset d p.1 p.2) d)).Nodup := by
  induction ps with
  | nil => intro d h; exact h
  | cons p t ih =>
    intro d h
    exact ih (dset d p.1 p.2) (dkeys_dset_nodup d p.1 p.2 h)

theorem dkeys_build_toFinset (ps : List (String × String)) :
    ∀ d, (dkeys (ps.foldl (fun d p => dset d p.1 p.2) d)).toFinset
      = (dkeys d).toFinset ∪ (ps.map Prod.fst).toFinset := by
  induction ps with
  | nil => intro d; simp
  | cons p t ih =>
    intro d
    simp only [List.foldl_cons]
    rw [ih, dkeys_dset_toFinset]
    ext x
    simp [or_comm, or_assoc, or_left_comm]

theorem map_fst_zip_eq_take (hs : List String) :
    ∀ cs : List String, (hs.zip cs).map Prod.fst = hs.take cs.length := by
  induction hs with
  | nil => intro cs; simp
  | cons h t ih =>
    intro cs
    cases cs with
    | nil => simp
    | cons c ct => simp [List.zip_cons_cons, ih ct]

/-- With a duplicated label in the template, every built record has strictly
fewer keys than the template has entries. -/
theorem dkeys_build_length_lt (hs cs : List String) (hdup : ¬ hs.Nodup) :
    (dkeys (buildRecord hs cs)).length < hs.length := by
  have hnodup : (dkeys (buildRecord hs cs)).Nodup :=
    dkeys_build_nodup (hs.zip cs) [] (by simp [dkeys])
  have hcard : (dkeys (buildRecord hs cs)).length
      = ((hs.zip cs).map Prod.fst).toFinset.card := by
    rw [← List.toFinset_card_of_nodup hnodup]
    congr 1
    have := dkeys_build_toFinset (hs.zip cs) []
    simpa [dkeys] using this
  rw [hcard, map_fst_zip_eq_take]
  by_cases hlen : hs.length ≤ cs.length
  · rw [List.take_of_length_le hlen]
    have hsub := List.dedup_sublist hs
    have hle := hsub.length_le
    rcases lt_or_eq_of_le hle with hlt | heq
    · calc hs.toFinset.card = hs.dedup.length := List.card_toFinset hs
        _ < hs.length := hlt
    · exfalso
      have : hs.dedup = hs := hsub.eq_of_length heq
      exact hdup (this ▸ List.nodup_dedup hs)
  · have h1 : (hs.take cs.length).toFinset.card ≤ (hs.take cs.length).length :=
      List.toFinset_card_le _
    have h2 : (hs.take cs.length).length < hs.length := by
      rw [List.length_take]
      omega
    omega

/-- Every key of a built record is a label of the template. -/
theorem dkeys_build_subset (hs cs : List String) (k : String)
    (h : k ∈ dkeys (buildRecord hs cs)) : k ∈ hs := by
  have hmem : k ∈ (dkeys ((hs.zip cs).foldl (fun d p => dset d p.1 p.2) [])).toFinset :=
    List.mem_toFinset.mpr h
  rw [dkeys_build_toFinset (hs.zip cs) []] at hmem
  have hk : k ∈ ((hs.zip cs).map Prod.fst).toFinset := by
    simpa [dkeys] using hmem
  rw [map_fst_zip_eq_take] at hk
  exact List.take_subset cs.length hs (List.mem_toFinset.mp hk)

/-! ## Lemmas on the table locator -/

theorem findAux_eq_find (doc : CDoc) :
    ∀ prev, findCardTableAux prev doc = ((twp prev doc).find? qualT).map Prod.snd := by
  induction doc with
  | nil => intro prev; rfl
  | cons b rest ih =>
    intro prev
    cases b with
    | heading t => simp only [findCardTableAux, twp]; exact ih (some t)
    | table tb =>
      cases ha : ruleA tb with
      | true =>
        have hq : qualT (prev, tb) = true := by simp [qualT, ha]
        simp [findCardTableAux, twp, ha, List.find?_cons_of_pos _ hq]
      | false =>
        cases hb : prevMatches prev with
        | true =>
          have hq : qualT (prev, tb) = true := by simp [qualT, hb]
          simp [findCardTableAux, twp, ha, hb, List.find?_cons_of_pos _ hq]
        | false =>
          have hq : qualT (prev, tb) = false := by simp [qualT, ha, hb]
          have hstep : findCardTableAux prev (Block.table tb :: rest)
              = findCardTableAux prev rest := by
            simp [findCardTableAux, ha, hb]
          rw [hstep, show twp prev (Block.table tb :: rest)
              = (prev, tb) :: twp prev rest from rfl,
            List.find?_cons_of_neg _ (by simp [hq])]
          exact ih prev

theorem find?_append_of_all_neg (p : Option String × CTable → Bool)
    (l1 l2 : List (Option String × CTable)) (h : ∀ q ∈ l1, p q = false) :
    (l1 ++ l2).find? p = l2.find? p := by
  induction l1 with
  | nil => rfl
  | cons q t ih =>
    rw [List.cons_append,
      List.find?_cons_of_neg _ (by simp [h q (List.mem_cons_self q t)])]
    exact ih (fun r hr => h r (List.mem_cons_of_mem q hr))

theorem dset_ne_nil (d : List (String × String)) (k v : String) :
    dset d k v ≠ [] := by
  cases d with
  | nil => simp [dset]
  | cons p t =>
    obtain ⟨k', v'⟩ := p
    by_cases h : k' = k <;> simp [dset, h]

theorem foldl_dset_ne_nil (ps : List (String × String)) :
    ∀ d, d ≠ [] → ps.foldl (fun d p => dset d p.1 p.2) d ≠ [] := by
  induction ps with
  | nil => intro d h; exact h
  | cons p t ih =>
    intro d h
    exact ih (dset d p.1 p.2) (dset_ne_nil d p.1 p.2)

theorem buildRecord_ne_nil (hs cs : List String) (h1 : hs ≠ []) (h2 : cs ≠ []) :
    buildRecord hs cs ≠ [] := by
  match hs, cs with
  | h :: ht, c :: ct =>
    rw [buildRecord, List.zip_cons_cons, List.foldl_cons]
    exact foldl_dset_ne_nil (ht.zip ct) _ (dset_ne_nil [] h c)

/-- When a matching section heading with a table exists, `extract_voice_data`
folds the classifier over the table's rows. -/
theorem extract_ok_section (rows : List VRow) :
    extract_voice_data (Except.ok [⟨"演出・ボイス", some rows⟩])
      = rows.foldl vstep emptyVoice := rfl

/-! ## Claims -/

/-- C1, counterexample: in `exDocC1` the table `exTableA` satisfies Rule A,
yet the locator returns `exTableB`, a table that fails Rule A and is selected
only through Rule B (its nearest preceding heading contains `実装カード`).  So
Rule B is not reserved for documents in which no table satisfies Rule A. -/
theorem C1_counterexample :
    find_card_table exDocC1 = some exTableB ∧
    Block.table exTableA ∈ exDocC1 ∧ ruleA exTableA = true ∧
    ruleA exTableB = false ∧ exTableB ≠ exTableA := by
  decide

/-- C1 (amended): the locator walks the tables in document order, checking
Rule A and then Rule B on each table before moving on; it returns the first
table satisfying either rule.  In particular a Rule-A table is returned
whenever every earlier table fails both Rule A and Rule B. -/
theorem C1_table_locator (doc : CDoc)
    (pre post : List (Option String × CTable)) (p : Option String) (t : CTable)
    (hsplit : twp none doc = pre ++ (p, t) :: post)
    (hA : ruleA t = true)
    (hpre : ∀ q ∈ pre, qualT q = false) :
    find_card_table doc = some t := by
  rw [find_card_table, findAux_eq_find, show twp none doc = pre ++ (p, t) :: post from hsplit,
    find?_append_of_all_neg qualT pre _ hpre,
    List.find?_cons_of_pos _ (show qualT (p, t) = true by simp [qualT, hA])]
  rfl

/-- C1 witness: with a table failing both rules ahead of a Rule-A table,
the Rule-A table is selected. -/
theorem C1_table_locator_witness :
    find_card_table [Block.table exTableB, Block.table exTableA]
      = some exTableA := by
  exact C1_table_locator [Block.table exTableB, Block.table exTableA]
    [(none, exTableB)] [] none exTableA (by decide) (by decide) (by decide)

/-- C2, counterexample: two rows both matching the generic skill-activation
rule, with messages `""` then `"s2"`; the stored value is `"s2"`, so the
second generic match is not dropped — "only the first matching row in
document order is stored" fails when the first message is empty. -/
theorem C2_counterexample :
    vget (extract_voice_data (Except.ok
        [⟨"演出・ボイス", some [["スキル発動", ""], ["スキル発動", "s2"]]⟩]))
      "スキル発動" = "s2" ∧ ("s2" : String) ≠ "" := by
  decide

/-- C2 (amended): for the seven unguarded categories each matching row
overwrites the stored value (two matching rows store the second message),
while for the generic skill-activation category the guard tests emptiness of
the stored value, so with a first message whose stripped text is non-empty
the first message is kept and the second is dropped. -/
theorem C2_overwrite_policy :
    (∀ (vd : List (String × String)) (l1 m1 : String) (r1 : List String)
        (l2 m2 : String) (r2 : List String),
      strIn "入手時" (pstrip l1) = true → strIn "入手時" (pstrip l2) = true →
      vget (vstep (vstep vd (l1 :: m1 :: r1)) (l2 :: m2 :: r2)) "入手時" = pstrip m2) ∧
    (∀ (vd : List (String × String)) (l1 m1 : String) (r1 : List String)
        (l2 m2 : String) (r2 : List String),
      strIn "特訓1回目" (pstrip l1) = true → strIn "入手時" (pstrip l1) = false →
      strIn "特訓1回目" (pstrip l2) = true → strIn "入手時" (pstrip l2) = false →
      vget (vstep (vstep vd (l1 :: m1 :: r1)) (l2 :: m2 :: r2)) "特訓1回目" = pstrip m2) ∧
    (∀ (vd : List (String × String)) (l1 m1 : String) (r1 : List String)
        (l2 m2 : String) (r2 : List String),
      strIn "特訓2回目" (pstrip l1) = true → strIn "入手時" (pstrip l1) = false →
      strIn "特訓1回目" (pstrip l1) = false →
      strIn "特訓2回目" (pstrip l2) = true → strIn "入手時" (pstrip l2) = false →
      strIn "特訓1回目" (pstrip l2) = false →
      vget (vstep (vstep vd (l1 :: m1 :: r1)) (l2 :: m2 :: r2)) "特訓2回目" = pstrip m2) ∧
    (∀ (vd : List (String × String)) (l1 m1 : String) (r1 : List String)
        (l2 m2 : String) (r2 : List String),
      strIn "特訓時" (pstrip l1) = true → strIn "入手時" (pstrip l1) = false →
      strIn "特訓1回目" (pstrip l1) = false → strIn "特訓2回目" (pstrip l1) = false →
      strIn "特訓時" (pstrip l2) = true → strIn "入手時" (pstrip l2) = false →
      strIn "特訓1回目" (pstrip l2) = false → strIn "特訓2回目" (pstrip l2) = false →
      vget (vstep (vstep vd (l1 :: m1 :: r1)) (l2 :: m2 :: r2)) "特訓時" = pstrip m2) ∧
    (∀ (vd : List (String × String)) (l1 m1 : String) (r1 : List String)
        (l2 m2 : String) (r2 : List String),
      strIn "ライブ開始" (pstrip l1) = true → strIn "入手時" (pstrip l1) = false →
      strIn "特訓1回目" (pstrip l1) = false → strIn "特訓2回目" (pstrip l1) = false →
      strIn "特訓時" (pstrip l1) = false →
      strIn "ライブ開始" (pstrip l2) = true → strIn "入手時" (pstrip l2) = false →
      strIn "特訓1回目" (pstrip l2) = false → strIn "特訓2回目" (pstrip l2) = false →
      strIn "特訓時" (pstrip l2) = false →
      vget (vstep (vstep vd (l1 :: m1 :: r1)) (l2 :: m2 :: r2)) "ライブ開始" = pstrip m2) ∧
    (∀ (vd : List (String × String)) (l1 m1 : String) (r1 : List String)
        (l2 m2 : String) (r2 : List String),
      strIn "クロスボイス" (pstrip l1) = true → strIn "入手時" (pstrip l1) = false →
      strIn "特訓1回目" (pstrip l1) = false → strIn "特訓2回目" (pstrip l1) = false →
      strIn "特訓時" (pstrip l1) = false → strIn "ライブ開始" (pstrip l1) = false →
      strIn "クロスボイス" (pstrip l2) = true → strIn "入手時" (pstrip l2) = false →
      strIn "特訓1回目" (pstrip l2) = false → strIn "特訓2回目" (pstrip l2) = false →
      strIn "特訓時" (pstrip l2) = false → strIn "ライブ開始" (pstrip l2) = false →
      vget (vstep (vstep vd (l1 :: m1 :: r1)) (l2 :: m2 :: r2))
        "スキル発動(クロスボイス)" = pstrip m2) ∧
    (∀ (vd : List (String × String)) (l1 m1 : String) (r1 : List String)
        (l2 m2 : String) (r2 : List String),
      strIn "SP発動" (pstrip l1) = true → strIn "入手時" (pstrip l1) = false →
      strIn "特訓1回目" (pstrip l1) = false → strIn "特訓2回目" (pstrip l1) = false →
      strIn "特訓時" (pstrip l1) = false → strIn "ライブ開始" (pstrip l1) = false →
      strIn "クロスボイス" (pstrip l1) = false → strIn "スキル発動" (pstrip l1) = false →
      strIn "SP発動" (pstrip l2) = true → strIn "入手時" (pstrip l2) = false →
      strIn "特訓1回目" (pstrip l2) = false → strIn "特訓2回目" (pstrip l2) = false →
      strIn "特訓時" (pstrip l2) = false → strIn "ライブ開始" (pstrip l2) = false →
      strIn "クロスボイス" (pstrip l2) = false → strIn "スキル発動" (pstrip l2) = false →
      vget (vstep (vstep vd (l1 :: m1 :: r1)) (l2 :: m2 :: r2)) "SP発動" = pstrip m2) ∧
    (∀ (l1 m1 : String) (r1 : List String) (l2 m2 : String) (r2 : List String),
      strIn "スキル発動" (pstrip l1) = true → strIn "入手時" (pstrip l1) = false →
      strIn "特訓1回目" (pstrip l1) = false → strIn "特訓2回目" (pstrip l1) = false →
      strIn "特訓時" (pstrip l1) = false → strIn "ライブ開始" (pstrip l1) = false →
      strIn "クロスボイス" (pstrip l1) = false →
      pstrip m1 ≠ "" →
      vget (vstep (vstep emptyVoice (l1 :: m1 :: r1)) (l2 :: m2 :: r2)) "スキル発動"
        = pstrip m1) := by
  refine ⟨?_, ?_, ?_, ?_, ?_, ?_, ?_, ?_⟩
  · intro vd l1 m1 r1 l2 m2 r2 h1 h2
    rw [vstep_acq _ l2 m2 r2 h2, vget_dset_self]
  · intro vd l1 m1 r1 l2 m2 r2 h1 h1a h2 h2a
    rw [vstep_t1 _ l2 m2 r2 h2 h2a, vget_dset_self]
  · intro vd l1 m1 r1 l2 m2 r2 h1 h1a h1b h2 h2a h2b
    rw [vstep_t2 _ l2 m2 r2 h2 h2a h2b, vget_dset_self]
  · intro vd l1 m1 r1 l2 m2 r2 h1 h1a h1b h1c h2 h2a h2b h2c
    rw [vstep_tg _ l2 m2 r2 h2 h2a h2b h2c, vget_dset_self]
  · intro vd l1 m1 r1 l2 m2 r2 h1 h1a h1b h1c h1d h2 h2a h2b h2c h2d
    rw [vstep_live _ l2 m2 r2 h2 h2a h2b h2c h2d, vget_dset_self]
  · intro vd l1 m1 r1 l2 m2 r2 h1 h1a h1b h1c h1d h1e h2 h2a h2b h2c h2d h2e
    rw [vstep_cross _ l2 m2 r2 h2 h2a h2b h2c h2d h2e, vget_dset_self]
  · intro vd l1 m1 r1 l2 m2 r2 h1 h1a h1b h1c h1d h1e h1f h1g
      h2 h2a h2b h2c h2d h2e h2f h2g
    rw [vstep_sp _ l2 m2 r2 h2 h2a h2b h2c h2d h2e h2f h2g, vget_dset_self]
  · intro l1 m1 r1 l2 m2 r2 h1 h1a h1b h1c h1d h1e h1f hm
    rw [vstep_skill emptyVoice l1 m1 r1 h1 h1a h1b h1c h1d h1e h1f rfl]
    have hval : vget (dset emptyVoice "スキル発動" (pstrip m1)) "スキル発動" = pstrip m1 :=
      vget_dset_self _ _ _
    rw [vget_vstep_skill_stable _ _ (by rw [hval]; exact hm), hval]

/-- C2 witness: acquisition keeps the last message, generic skill-activation
keeps the first non-empty one. -/
theorem C2_overwrite_policy_witness :
    vget (vstep (vstep emptyVoice ["入手時", "m1"]) ["入手時", "m2"]) "入手時" = "m2" ∧
    vget (vstep (vstep emptyVoice ["スキル発動", "s1"]) ["スキル発動", "s2"]) "スキル発動"
      = "s1" := by
  constructor
  · have h := C2_overwrite_policy.1 emptyVoice "入手時" "m1" [] "入手時" "m2" []
      (by decide) (by decide)
    rw [h]; decide
  · have h := C2_overwrite_policy.2.2.2.2.2.2.2 "スキル発動" "s1" [] "スキル発動" "s2" []
      (by decide) (by decide) (by decide) (by decide) (by decide) (by decide)
      (by decide) (by decide)
    rw [h]; decide

/-- C3, counterexample: a label containing both the training-first and
generic training markers but also the acquisition marker is classified as
acquisition, not training-first; and a label containing the special
spelling variant `SP スキル発動` is captured by the generic skill-activation
rule, not by the special-activation rule. -/
theorem C3_counterexample :
    (strIn "特訓1回目" (pstrip "入手時特訓1回目特訓時") = true ∧
     strIn "特訓時" (pstrip "入手時特訓1回目特訓時") = true ∧
     vget (vstep emptyVoice ["入手時特訓1回目特訓時", "m"]) "特訓1回目" = "" ∧
     vget (vstep emptyVoice ["入手時特訓1回目特訓時", "m"]) "入手時" = "m") ∧
    (strIn "SP スキル発動" (pstrip "SP スキル発動") = true ∧
     vget (vstep emptyVoice ["SP スキル発動", "m"]) "スキル発動" = "m" ∧
     vget (vstep emptyVoice ["SP スキル発動", "m"]) "SP発動" = "") := by
  decide

/-- C3 (amended): a row whose label contains the training-first marker is
never assigned to the generic training category; if the label moreover does
not contain the acquisition marker — the only rule of higher priority — its
message is assigned to training-first. -/
theorem C3_priority (vd : List (String × String)) (l m : String) (r : List String)
    (h1 : strIn "特訓1回目" (pstrip l) = true) :
    (strIn "入手時" (pstrip l) = false →
      vget (vstep vd (l :: m :: r)) "特訓1回目" = pstrip m) ∧
    vget (vstep vd (l :: m :: r)) "特訓時" = vget vd "特訓時" := by
  constructor
  · intro h0
    rw [vstep_t1 vd l m r h1 h0, vget_dset_self]
  · cases h0 : strIn "入手時" (pstrip l) with
    | true =>
      rw [vstep_acq vd l m r h0]
      exact vget_dset_ne vd _ _ _ (by decide)
    | false =>
      rw [vstep_t1 vd l m r h1 h0]
      exact vget_dset_ne vd _ _ _ (by decide)

/-- C3 witness: a label bearing both training markers is stored as
training-first and leaves training-general untouched. -/
theorem C3_priority_witness :
    vget (vstep emptyVoice ["特訓1回目(特訓時)", "v"]) "特訓1回目" = "v" ∧
    vget (vstep emptyVoice ["特訓1回目(特訓時)", "v"]) "特訓時" = "" := by
  have h := C3_priority emptyVoice "特訓1回目(特訓時)" "v" [] (by decide)
  constructor
  · rw [h.1 (by decide)]; decide
  · rw [h.2]; decide

/-- C4: with header template `[A, B, C]` (stripped texts, pairwise
distinct), a two-cell data row yields the record `{A, B}` with no key `C`;
a four-cell data row yields a record with exactly the three template keys
(no key for the fourth cell); a zero-cell row emits no record; and a table
whose first row has zero cells parses to the empty record sequence. -/
theorem C4_positional_rows (A B C x y z w : String)
    (hAB : pstrip A ≠ pstrip B) (hAC : pstrip A ≠ pstrip C)
    (hBC : pstrip B ≠ pstrip C) :
    (parse_card_table [[th A, th B, th C], [td x, td y]]
        = [[(pstrip A, pstrip x), (pstrip B, pstrip y)]] ∧
      dget (buildRecord [pstrip A, pstrip B, pstrip C] [pstrip x, pstrip y])
        (pstrip C) = none) ∧
    (parse_card_table [[th A, th B, th C], [td x, td y, td z, td w]]
        = [[(pstrip A, pstrip x), (pstrip B, pstrip y), (pstrip C, pstrip z)]] ∧
      dkeys (buildRecord [pstrip A, pstrip B, pstrip C]
          [pstrip x, pstrip y, pstrip z, pstrip w])
        = [pstrip A, pstrip B, pstrip C]) ∧
    parse_card_table [[th A, th B, th C], [], [td x, td y]]
      = [[(pstrip A, pstrip x), (pstrip B, pstrip y)]] ∧
    (∀ rows : List CRow, parse_card_table ([] :: rows) = []) := by
  refine ⟨⟨?_, ?_⟩, ⟨?_, ?_⟩, ?_, ?_⟩ <;>
    simp [parse_card_table, buildRecord, dset, dget, dkeys, cellText, th, td,
      List.zip_cons_cons, hAB, hAC, hBC]

/-- C4 witness: concrete two-cell row under a three-label template. -/
theorem C4_positional_rows_witness :
    parse_card_table [[th "A", th "B", th "C"], [td "x", td "y"]]
      = [[("A", "x"), ("B", "y")]] := by
  have h := (C4_positional_rows "A" "B" "C" "x" "y" "z" "w"
    (by decide) (by decide) (by decide)).1.1
  rw [h]; decide

/-- C5: Rule A holds exactly when all required labels and at least one
optional label occur among the table's header-role cell texts, and it is
monotone under adding header cells (supersets never disqualify). -/
theorem C5_ruleA_predicate (tb : CTable) :
    (ruleA tb = true ↔
      ((∀ h ∈ requiredHeaders, h ∈ thTexts tb) ∧
        ∃ h ∈ optionalHeaders, h ∈ thTexts tb)) ∧
    (∀ tb2 : CTable, ruleA tb = true →
      (∀ s ∈ thTexts tb, s ∈ thTexts tb2) → ruleA tb2 = true) := by
  have hiff : ∀ t : CTable, ruleA t = true ↔
      ((∀ h ∈ requiredHeaders, h ∈ thTexts t) ∧
        ∃ h ∈ optionalHeaders, h ∈ thTexts t) := by
    intro t
    simp [ruleA, List.all_eq_true, List.any_eq_true, List.elem_iff]
  refine ⟨hiff tb, ?_⟩
  intro tb2 hA hsub
  rcases (hiff tb).mp hA with ⟨hreq, hopt, hoptm, hopti⟩
  exact (hiff tb2).mpr ⟨fun h hh => hsub h (hreq h hh), hopt, hoptm, hsub hopt hopti⟩

/-- C5 witness: extra unrelated header cells do not disqualify a Rule-A
table. -/
theorem C5_ruleA_predicate_witness :
    ruleA [[th "レアリティ", th "カード名", th "スマイル", th "余分"]] = true := by
  exact (C5_ruleA_predicate exTableA).2
    [[th "レアリティ", th "カード名", th "スマイル", th "余分"]]
    (by decide) (by decide)

/-- C6: the link generator is the fixed base path followed by the UTF-8
percent-encoding of the entity name with ASCII slashes replaced by `／`,
wrapped in `［ ］`, and the member name appended with no separator; on
`"Card/Name"` and `"M"` it produces the expected encoded address. -/
theorem C6_link_generator :
    (∀ n m : String, generate_card_link n m
        = baseUrl ++ urlquote ("［" ++ slashToFull n ++ "］" ++ m)) ∧
    generate_card_link "Card/Name" "M"
      = "https://wikiwiki.jp/llll_wiki/%EF%BC%BBCard%EF%BC%8FName%EF%BC%BDM" := by
  exact ⟨fun n m => rfl, by decide⟩

/-- C7: a fetch/parse exception and a document without a section heading
containing both markers each yield the all-empty 8-key record, no exception
escapes (the function is total), and every result carries exactly the 8
category keys. -/
theorem C7_soft_failure :
    (∀ e : String, extract_voice_data (Except.error e) = emptyVoice) ∧
    (∀ doc : VDoc,
      (∀ h ∈ doc, ¬(strIn "演出" h.text = true ∧ strIn "ボイス" h.text = true)) →
      extract_voice_data (Except.ok doc) = emptyVoice) ∧
    (∀ x : Except String VDoc, dkeys (extract_voice_data x) = voiceKeys) ∧
    (∀ k ∈ voiceKeys, vget emptyVoice k = "") := by
  refine ⟨fun e => rfl, ?_, ?_, by decide⟩
  · intro doc h
    have hf : doc.find? (fun hd => strIn "演出" hd.text && strIn "ボイス" hd.text)
        = none := by
      rw [List.find?_eq_none]
      intro x hx
      rw [Bool.and_eq_true]
      exact h x hx
    simp [extract_voice_data, hf]
  · intro x
    match x with
    | Except.error e => rfl
    | Except.ok doc =>
      simp only [extract_voice_data]
      cases hf : doc.find? (fun hd => strIn "演出" hd.text && strIn "ボイス" hd.text) with
      | none => rfl
      | some sec =>
        obtain ⟨txt, dt⟩ := sec
        cases dt with
        | none => rfl
        | some rows => exact dkeys_foldl_vstep rows emptyVoice rfl

/-- C7 witness: a detail document whose only heading lacks the markers
yields the all-empty record. -/
theorem C7_soft_failure_witness :
    extract_voice_data (Except.ok [⟨"入手方法", some [["入手時", "m"]]⟩]) = emptyVoice := by
  exact C7_soft_failure.2.1 [⟨"入手方法", some [["入手時", "m"]]⟩] (by decide)

/-- C8: `verify_link` propagates a HEAD transport error as `(false, 0, e)`;
with a HEAD status below 400 it never consults the GET outcome and reports
that status; with a HEAD status at least 400 it reports the GET outcome
(status or transport error); and its success flag is true exactly when the
final response is a status in `[200, 400)`. -/
theorem C8_verify_link_behaviour :
    (∀ (e : String) (g : Except String Nat),
      verify_link (Except.error e) g = (false, 0, e)) ∧
    (∀ (s : Nat) (g : Except String Nat), s < 400 →
      verify_link (Except.ok s) g = (decide (200 ≤ s ∧ s < 400), s, "") ∧
      ∀ g2, verify_link (Except.ok s) g2 = verify_link (Except.ok s) g) ∧
    (∀ s t : Nat, 400 ≤ s →
      verify_link (Except.ok s) (Except.ok t)
        = (decide (200 ≤ t ∧ t < 400), t, "")) ∧
    (∀ (s : Nat) (e : String), 400 ≤ s →
      verify_link (Except.ok s) (Except.error e) = (false, 0, e)) ∧
    (∀ (h g : Except String Nat), (verify_link h g).1 = true ↔
      ∃ s, finalResponse h g = Except.ok s ∧ 200 ≤ s ∧ s < 400) := by
  refine ⟨fun e g => rfl, ?_, ?_, ?_, ?_⟩
  · intro s g hs
    have hns : ¬ 400 ≤ s := by omega
    exact ⟨by simp [verify_link, hns], fun g2 => by simp [verify_link, hns]⟩
  · intro s t hs
    simp [verify_link, hs]
  · intro s e hs
    simp [verify_link, hs]
  · intro h g
    match h with
    | Except.error e => simp [verify_link, finalResponse]
    | Except.ok s =>
      by_cases hs : 400 ≤ s
      · match g with
        | Except.error e => simp [verify_link, finalResponse, hs]
        | Except.ok t => simp [verify_link, finalResponse, hs, decide_eq_true_iff]
      · simp [verify_link, finalResponse, hs, decide_eq_true_iff]

/-- C8 witness: a failed HEAD followed by a successful GET succeeds with the
GET status; a HEAD transport error is reported as `(false, 0, message)`. -/
theorem C8_verify_link_behaviour_witness :
    verify_link (Except.ok 404) (Except.ok 200) = (true, 200, "") ∧
    verify_link (Except.error "timeout") (Except.ok 200) = (false, 0, "timeout") := by
  constructor
  · have h := C8_verify_link_behaviour.2.2.1 404 200 (by decide)
    rw [h]; decide
  · exact C8_verify_link_behaviour.1 "timeout" (Except.ok 200)

/-- C9: the guard on the generic skill-activation category tests emptiness
of the stored value, not whether a match occurred: after a first generic row
with empty message, a later generic row is still stored; only when the first
message strips to something non-empty is the first-match-wins behaviour
obtained. -/
theorem C9_skill_guard (m2 s1 s2 : String) :
    vget (extract_voice_data (Except.ok
        [⟨"演出・ボイス", some [["スキル発動", ""], ["スキル発動", m2]]⟩]))
      "スキル発動" = pstrip m2 ∧
    (pstrip s1 ≠ "" →
      vget (extract_voice_data (Except.ok
          [⟨"演出・ボイス", some [["スキル発動", s1], ["スキル発動", s2]]⟩]))
        "スキル発動" = pstrip s1) := by
  constructor
  · rw [extract_ok_section]
    have h1 : vstep emptyVoice ["スキル発動", ""] = emptyVoice := by decide
    simp only [List.foldl_cons, List.foldl_nil, h1]
    rw [vstep_skill emptyVoice "スキル発動" m2 [] (by decide) (by decide) (by decide)
      (by decide) (by decide) (by decide) (by decide) rfl]
    exact vget_dset_self _ _ _
  · intro hm
    rw [extract_ok_section]
    simp only [List.foldl_cons, List.foldl_nil]
    rw [vstep_skill emptyVoice "スキル発動" s1 [] (by decide) (by decide) (by decide)
      (by decide) (by decide) (by decide) (by decide) rfl]
    have hval : vget (dset emptyVoice "スキル発動" (pstrip s1)) "スキル発動" = pstrip s1 :=
      vget_dset_self _ _ _
    rw [vget_vstep_skill_stable _ _ (by rw [hval]; exact hm), hval]

/-- C9 witness: with a non-empty first message the first generic match is
kept; with an empty first message the second is stored. -/
theorem C9_skill_guard_witness :
    vget (extract_voice_data (Except.ok
        [⟨"演出・ボイス", some [["スキル発動", "s1"], ["スキル発動", "s2"]]⟩]))
      "スキル発動" = "s1" ∧
    vget (extract_voice_data (Except.ok
        [⟨"演出・ボイス", some [["スキル発動", ""], ["スキル発動", "x"]]⟩]))
      "スキル発動" = "x" := by
  constructor
  · have h := (C9_skill_guard "x" "s1" "s2").2 (by decide)
    rw [h]; decide
  · have h := (C9_skill_guard "x" "s1" "s2").1
    rw [h]; decide

/-- C10: if the first-row template carries a duplicated (stripped) label,
every emitted record has strictly fewer keys than the template has entries
and all its keys are template labels; and under a shared label the cell at
the last duplicated position within the row's range is the stored value,
while that record is indeed among the parser's output. -/
theorem C10_duplicate_template (hrow : CRow) (drows : List CRow)
    (hdup : ¬ (hrow.map cellText).Nodup) :
    (∀ rec ∈ parse_card_table (hrow :: drows),
      (dkeys rec).length < (hrow.map cellText).length ∧
        ∀ k ∈ dkeys rec, k ∈ hrow.map cellText) ∧
    (∀ row ∈ drows, ∀ (L : String) (i j : Nat)
      (hi : i < (hrow.map cellText).length)
      (hj : j < (hrow.map cellText).length)
      (hjc : j < (row.map cellText).length),
      i < j →
      (hrow.map cellText).get ⟨i, hi⟩ = L →
      (hrow.map cellText).get ⟨j, hj⟩ = L →
      (∀ k (hk : k < (hrow.map cellText).length), j < k →
        k < (row.map cellText).length → (hrow.map cellText).get ⟨k, hk⟩ ≠ L) →
      dget (buildRecord (hrow.map cellText) (row.map cellText)) L
          = some ((row.map cellText).get ⟨j, hjc⟩) ∧
        buildRecord (hrow.map cellText) (row.map cellText)
          ∈ parse_card_table (hrow :: drows)) := by
  have hne : (hrow.map cellText).isEmpty = false := by
    cases hmap : hrow.map cellText with
    | nil => exact absurd (hmap ▸ List.nodup_nil) hdup
    | cons a t => rfl
  have hnnil : hrow.map cellText ≠ [] := by
    intro hh
    exact absurd (hh ▸ List.nodup_nil) hdup
  constructor
  · intro rec hrec
    simp only [parse_card_table, hne, Bool.false_eq_true, if_false] at hrec
    obtain ⟨row, hmem, hf⟩ := List.mem_filterMap.mp hrec
    by_cases hc : (row.map cellText).isEmpty
    · simp [hc] at hf
    · simp only [hc, Bool.false_eq_true, if_false] at hf
      by_cases hd2 : (buildRecord (hrow.map cellText) (row.map cellText)).isEmpty
      · simp [hd2] at hf
      · simp only [hd2, Bool.false_eq_true, if_false, Option.some.injEq] at hf
        subst hf
        exact ⟨dkeys_build_length_lt _ _ hdup,
          fun k hk => dkeys_build_subset _ _ k hk⟩
  · intro row hmem L i j hi hj hjc hij hLi hLj hlast
    have hcne : row.map cellText ≠ [] := by
      intro hh
      rw [hh] at hjc
      exact absurd hjc (by simp)
    have hcnef : (row.map cellText).isEmpty = false := by
      cases hmap : row.map cellText with
      | nil => exact absurd hmap hcne
      | cons a t => rfl
    have hbne : buildRecord (hrow.map cellText) (row.map cellText) ≠ [] :=
      buildRecord_ne_nil _ _ hnnil hcne
    have hbnef : (buildRecord (hrow.map cellText) (row.map cellText)).isEmpty = false := by
      cases hmap : buildRecord (hrow.map cellText) (row.map cellText) with
      | nil => exact absurd hmap hbne
      | cons a t => rfl
    constructor
    · exact dget_build_last _ _ L j hj hjc hLj hlast
    · simp only [parse_card_table, hne, Bool.false_eq_true, if_false]
      refine List.mem_filterMap.mpr ⟨row, hmem, ?_⟩
      simp only [hcnef, Bool.false_eq_true, if_false, hbnef]

/-- C10 witness: template `[A, A, B]` with row `[x, y, z]` stores `y` under
the shared label `A`, and the emitted record is in the parser output with
2 (< 3) keys. -/
theorem C10_duplicate_template_witness :
    dget (buildRecord ["A", "A", "B"] ["x", "y", "z"]) "A" = some "y" ∧
    buildRecord ["A", "A", "B"] ["x", "y", "z"]
      ∈ parse_card_table [[th "A", th "A", th "B"], [td "x", td "y", td "z"]] := by
  have h := (C10_duplicate_template [th "A", th "A", th "B"] [[td "x", td "y", td "z"]]
      (by decide)).2
    [td "x", td "y", td "z"] (by simp) "A" 0 1 (by decide) (by decide)
    (by decide) (by decide) (by decide) (by decide) (by decide)
  exact ⟨h.1.trans (by decide), h.2⟩

